import Mathlib

/-!
# Verification of the graph-based SQL learning core

Shallow embedding of `GraphLearningService`
(`src/examples/GRAPH_BASED_LEARNING.md`): the structural analyzer
(`_analyze_query_structure`, `_get_query_type`, `_calculate_complexity`),
the relationship learner (`analyze_and_store_query`,
`_learn_performance_patterns`, `_learn_co_occurrence_patterns`), the
suggestion engine (`get_intelligent_suggestions` and its five generators)
and the insights aggregator (`get_workspace_insights`,
`_analyze_complexity_trends`).

External collaborators that are not part of the repository are modelled
from the spec where needed: the `KnowledgeGraph` triple store (spec 4.2),
the `sqlparse` tokenizer (token streams are taken as inputs), and
Python's builtin string hash.
-/

/-! ## String utilities (Python `in`, `str.count`, `str.strip`, regex capture) -/

/-- `leadsWith needle hay` is true when `needle` is an initial segment of `hay`
(char-list version of Python's `str.startswith`, used to build substring scans). -/
def leadsWith : List Char → List Char → Bool
  | [], _ => true
  | _ :: _, [] => false
  | a :: as, b :: bs => a = b && leadsWith as bs

/-- `hasSub needle hay`: does `needle` occur as a contiguous run of `hay`?
(Python's `needle in hay` on strings.) -/
def hasSub (needle : List Char) : List Char → Bool
  | [] => leadsWith needle []
  | c :: rest => leadsWith needle (c :: rest) || hasSub needle rest

/-- Python's `needle in hay` substring test. -/
def strContains (hay needle : String) : Bool :=
  hasSub needle.data hay.data

/-- Non-overlapping occurrence count, scanning left to right and skipping the
whole needle after a match (Python's `str.count`). The fuel argument bounds the
recursion; it is instantiated with the haystack length, which suffices because
every step consumes at least one character. -/
def countSubAux (needle : List Char) : Nat → List Char → Nat
  | 0, _ => 0
  | _, [] => 0
  | fuel + 1, c :: rest =>
    if leadsWith needle (c :: rest) then
      1 + countSubAux needle fuel (List.drop (needle.length - 1) rest)
    else
      countSubAux needle fuel rest

/-- Python's `hay.count(needle)` for non-empty needles. -/
def countSubstr (hay needle : String) : Nat :=
  countSubAux needle.data hay.data.length hay.data

/-- The characters matched by the Python regex class `\s`. -/
def isPySpace (c : Char) : Bool :=
  c = ' ' || c = '\t' || c = '\n' || c = '\r' || c = '\x0b' || c = '\x0c'

/-! The SQL texts and identifiers handled by the service are ASCII, so
Python's `str.upper`, `str.lower`, `str.strip` and single-character
`str.replace` are modelled by their ASCII versions over character lists
(the core `String` versions do not reduce in the kernel). -/

/-- ASCII `str.upper` on one character. -/
def asciiUpper (c : Char) : Char :=
  if 'a' ≤ c ∧ c ≤ 'z' then Char.ofNat (c.toNat - 32) else c

/-- ASCII `str.lower` on one character. -/
def asciiLower (c : Char) : Char :=
  if 'A' ≤ c ∧ c ≤ 'Z' then Char.ofNat (c.toNat + 32) else c

/-- Python `s.upper()` (ASCII). -/
def strUpper (s : String) : String := String.mk (s.data.map asciiUpper)

/-- Python `s.lower()` (ASCII). -/
def strLower (s : String) : String := String.mk (s.data.map asciiLower)

/-- Python `s.replace(a, b)` for one-character patterns. -/
def strReplaceChar (s : String) (a b : Char) : String :=
  String.mk (s.data.map (fun c => if c = a then b else c))

/-- Python `c in s` for a single character. -/
def strHasChar (s : String) (a : Char) : Bool :=
  s.data.any (fun c => c = a)

/-- Python `s.strip()` (ASCII whitespace). -/
def strStrip (s : String) : String :=
  String.mk (((s.data.dropWhile isPySpace).reverse.dropWhile isPySpace).reverse)

/-- One step of `re.findall` for the pattern `FUNC\s*\(\s*([^)]+)\s*\)`: after an
occurrence of the function name, optional blanks, an opening parenthesis and
optional blanks, the non-empty text up to the next closing parenthesis is
captured (then stripped by the caller, as `match.strip()` does).  On a failed
match the scan resumes one character later; on a success it resumes after the
closing parenthesis (non-overlapping, like `findall`).  Fuel bounds the
recursion and is instantiated with the text length. -/
def aggScan (needle : List Char) : Nat → List Char → List String
  | 0, _ => []
  | _, [] => []
  | fuel + 1, c :: rest =>
    if leadsWith needle (c :: rest) then
      let afterFunc := List.drop needle.length (c :: rest)
      let afterWs := afterFunc.dropWhile isPySpace
      match afterWs with
      | '(' :: inner =>
        let innerWs := inner.dropWhile isPySpace
        let captured := innerWs.takeWhile (fun ch => ch ≠ ')')
        match captured, innerWs.dropWhile (fun ch => ch ≠ ')') with
        | _ :: _, ')' :: tail => strStrip (String.mk captured) :: aggScan needle fuel tail
        | _, _ => aggScan needle fuel rest
      | _ => aggScan needle fuel rest
    else
      aggScan needle fuel rest

/-- `re.findall(f"{func}\\s*\\(\\s*([^)]+)\\s*\\)", query_str)` with each match
stripped, as in `_analyze_query_structure`. -/
def aggMatches (func qs : String) : List String :=
  aggScan func.data qs.data.length qs.data

/-! ## Token model

The repository parses with the external `sqlparse` library; the statements'
token streams are therefore inputs of the embedding.  `sqlparse` tags each
token with a token type, and the service compares token types with Python's
`is` (object identity), so `Keyword.DML` (the tag of `SELECT`, `INSERT`,
`UPDATE`, `DELETE`) and `Name` subtypes are distinct from the exact `Keyword`
and `Name` tags.  Only the distinctions the service can observe are kept. -/

/-- Token-type tag as observed through `token.ttype is sqlparse.tokens.X`. -/
inductive TType where
  | keyword
  | keywordDML
  | name
  | other
  deriving DecidableEq, Repr

/-- A lexed token: its type tag and its text. -/
structure Token where
  ttype : TType
  value : String
  deriving DecidableEq, Repr

/-- Modelled from the spec: the result of `sqlparse.parse(query)[0]`, which is
external to the repository.  `tokens` are the statement's top-level tokens
(walked by `_get_query_type`), `flat` the leaves of `flatten()` (walked by
`_analyze_query_structure`) and `text` the statement's text `str(parsed_query)`. -/
structure Parsed where
  tokens : List Token
  flat : List Token
  text : String
  deriving DecidableEq, Repr

/-! ## Structural analyzer -/

/-- An extracted join (an element of `analysis["joins"]`). -/
structure JoinInfo where
  left : String
  jtype : String
  right : String
  deriving DecidableEq, Repr

/-- An extracted aggregation (an element of `analysis["aggregations"]`). -/
structure AggInfo where
  func : String
  column : String
  deriving DecidableEq, Repr

/-- An extracted filter (an element of `analysis["filters"]`). -/
structure FilterInfo where
  column : String
  operator : String
  deriving DecidableEq, Repr

/-- The `analysis` dictionary built by `_analyze_query_structure`.  Python sets
(`tables`, `columns`) are modelled as duplicate-free lists in insertion order;
`patterns` is a genuine list and may repeat. -/
structure Analysis where
  type : String
  patterns : List String
  tables : List String
  columns : List String
  joins : List JoinInfo
  aggregations : List AggInfo
  filters : List FilterInfo
  subqueries : Nat
  complexityScore : Int
  deriving DecidableEq, Repr

/-- `_get_query_type`: the uppercased value of the first top-level token whose
type tag is exactly `Keyword`, with `"UNKNOWN"` as the fallback of
`first_keyword or "UNKNOWN"` (Python `or` also maps the empty string to the
fallback). -/
def getQueryType (p : Parsed) : String :=
  match p.tokens.find? (fun tk => tk.ttype = TType.keyword) with
  | some tk =>
    let fk := strUpper tk.value
    if fk = "" then "UNKNOWN" else fk
  | none => "UNKNOWN"

/-- The keyword-to-pattern mapping of the token walk in
`_analyze_query_structure`. -/
def patternOfKeyword (kw : String) : Option String :=
  if kw ∈ ["JOIN", "INNER JOIN", "LEFT JOIN", "RIGHT JOIN", "FULL JOIN"] then
    some (strReplaceChar kw ' ' '_' ++ "_PATTERN")
  else if kw ∈ ["GROUP BY", "ORDER BY", "HAVING"] then
    some (strReplaceChar kw ' ' '_' ++ "_PATTERN")
  else if kw ∈ ["UNION", "INTERSECT", "EXCEPT"] then
    some (kw ++ "_PATTERN")
  else if kw = "WITH" then
    some "CTE_PATTERN"
  else
    none

/-- The patterns appended by the token walk (keyword tokens only; the walk's
three accumulators are independent, so the single pass is split per field). -/
def tokenPatterns : List Token → List String
  | [] => []
  | tk :: rest =>
    (if tk.ttype = TType.keyword then (patternOfKeyword (strUpper tk.value)).toList else [])
      ++ tokenPatterns rest

/-- Python `set.add`: duplicate-free insertion at the back. -/
def setAdd (l : List String) (x : String) : List String :=
  if x ∈ l then l else l ++ [x]

/-- `name.split(".", 1)`: the part before the first dot and the rest. -/
def splitDotOnce (s : String) : String × String :=
  (String.mk (s.data.takeWhile (fun c => c ≠ '.')),
   String.mk ((s.data.dropWhile (fun c => c ≠ '.')).drop 1))

/-- The `tables` set built by the token walk: for a `Name` token containing a
dot, the part before the first dot; otherwise the whole lowercased name. -/
def tokenTables : List Token → List String → List String
  | [], acc => acc
  | tk :: rest, acc =>
    if tk.ttype = TType.name then
      let nm := strLower tk.value
      if strHasChar nm '.' then
        tokenTables rest (setAdd acc (splitDotOnce nm).1)
      else
        tokenTables rest (setAdd acc nm)
    else
      tokenTables rest acc

/-- The `columns` set built by the token walk: `f"{table}.{column}"` for a
dotted name (which re-joins to the name itself), the name otherwise. -/
def tokenColumns : List Token → List String → List String
  | [], acc => acc
  | tk :: rest, acc =>
    if tk.ttype = TType.name then
      let nm := strLower tk.value
      if strHasChar nm '.' then
        tokenColumns rest (setAdd acc ((splitDotOnce nm).1 ++ "." ++ (splitDotOnce nm).2))
      else
        tokenColumns rest (setAdd acc nm)
    else
      tokenColumns rest acc

/-- The aggregate function names scanned for by `_analyze_query_structure`. -/
def aggFunctions : List String :=
  ["COUNT", "SUM", "AVG", "MAX", "MIN", "STDDEV", "VARIANCE"]

/-- The `{FUNC}_AGGREGATION` patterns appended by the aggregation scan, one per
function name occurring in the uppercased query text, in scan order. -/
def aggPatterns (qs : String) : List String :=
  (aggFunctions.filter (fun f => strContains qs f)).map (fun f => f ++ "_AGGREGATION")

/-- The `aggregations` entries: for each detected function, every regex capture
with the function name attached. -/
def aggEntries (qs : String) : List AggInfo :=
  ((aggFunctions.filter (fun f => strContains qs f)).map
    (fun f => (aggMatches f qs).map (fun m => AggInfo.mk f m))).flatten

/-- `_calculate_complexity`: base score from the query type, plus weighted
counts, plus 5 per `SELECT` occurrence beyond the first (Python integers, so
the subquery term can be negative), plus 4 when the text contains `OVER`. -/
def calculateComplexity (a : Analysis) (queryStr : String) : Int :=
  let base : Int :=
    if a.type = "SELECT" then 1
    else if a.type ∈ ["INSERT", "UPDATE", "DELETE"] then 2
    else 0
  let score : Int := base
    + 2 * (a.patterns.length : Int)
    + (a.tables.length : Int)
    + 3 * (a.joins.length : Int)
    + 2 * (a.aggregations.length : Int)
    + 5 * ((countSubstr queryStr "SELECT" : Int) - 1)
  if strContains queryStr "OVER" then score + 4 else score

/-- `_analyze_query_structure`: type from the first exact keyword, patterns and
name sets from the flattened token walk, aggregation patterns and entries from
the uppercased text, then the complexity score.  `joins`, `filters` and
`subqueries` keep their initial values — no statement of the walk updates them. -/
def analyzeQueryStructure (p : Parsed) : Analysis :=
  let queryStr := strUpper p.text
  let a0 : Analysis := {
    type := getQueryType p
    patterns := tokenPatterns p.flat ++ aggPatterns queryStr
    tables := tokenTables p.flat []
    columns := tokenColumns p.flat []
    joins := []
    aggregations := aggEntries queryStr
    filters := []
    subqueries := 0
    complexityScore := 0 }
  { a0 with complexityScore := calculateComplexity a0 queryStr }

example :
    (analyzeQueryStructure
      ⟨[⟨TType.keywordDML, "SELECT"⟩, ⟨TType.keyword, "FROM"⟩, ⟨TType.name, "t"⟩],
       [⟨TType.keywordDML, "SELECT"⟩, ⟨TType.keyword, "FROM"⟩, ⟨TType.name, "t"⟩],
       "SELECT x FROM t"⟩).tables = ["t"] := by decide

example :
    (analyzeQueryStructure
      ⟨[], [⟨TType.keyword, "JOIN"⟩, ⟨TType.name, "u.id"⟩], "A JOIN B"⟩).patterns
      = ["JOIN_PATTERN"] := by decide

/-! ## Relation triples and the relationship learner -/

/-- A stored fact. -/
structure Triple where
  subj : String
  pred : String
  obj : String
  deriving DecidableEq, Repr

/-- Modelled from the spec: the `KnowledgeGraph` relation store
(`..modules.knowledge_graph`, imported by the service but not part of the
sources).  Spec 4.2: an append-only multiset of `(subject, predicate, object)`
triples kept in insertion order. -/
abbrev KnowledgeGraph := List Triple

/-- Modelled from the spec: `add_relation` appends one triple (spec 4.2 `add`). -/
def addRelation (kg : KnowledgeGraph) (s p o : String) : KnowledgeGraph :=
  kg ++ [⟨s, p, o⟩]

/-- Modelled from the spec: `get_relations` returns the objects stored for a
`(subject, predicate)` pair, in insertion order (spec 4.2 `get`). -/
def getRelations (kg : KnowledgeGraph) (subject predicate : String) : List String :=
  (kg.filter (fun tr => tr.subj = subject && tr.pred = predicate)).map (fun tr => tr.obj)

/-- Modelled from the spec: `get_all_relations` is the full scan (spec 4.2 `all`). -/
def getAllRelations (kg : KnowledgeGraph) : List Triple := kg

/-- Modelled from the spec: Python's builtin `str` hash used by
`analyze_and_store_query` is external to the repository; it is modelled by
CPython's classic string-hashing algorithm over 64 bits (hash randomization and
sign handling are not modelled).  Every result proved about query keys that
does not mention `pyHash` itself holds for an arbitrary hash function. -/
def pyHash (s : String) : Int :=
  match s.data with
  | [] => 0
  | c :: _ =>
    let m : Nat := 2 ^ 64
    let x0 : Nat := (c.toNat <<< 7) % m
    let x : Nat := s.data.foldl (fun x ch => ((1000003 * x) ^^^ ch.toNat) % m) x0
    Int.ofNat ((x ^^^ s.data.length) % m)

/-- `query_id = f"query_{hash(query) % 100000}"`; Lean's `Int.emod` agrees with
Python's `%` on a positive modulus (result in `[0, 100000)`). -/
def queryKey (h : String → Int) (q : String) : String :=
  "query_" ++ toString (h q % 100000)

/-- Rendering of the numeric arguments by Python's `str()`; every property
proved here is independent of the exact spelling, which only has to be a
deterministic function of the value. -/
def pyNumStr (x : Rat) : String :=
  toString x.num ++ "/" ++ toString x.den

/-- Python `str()` on a bool. -/
def pyBoolStr (b : Bool) : String :=
  if b then "True" else "False"

/-- The `user_context` dictionary. -/
structure UserContext where
  userId : Option String
  department : Option String
  deriving DecidableEq, Repr

/-- The six scalar facts written first by `analyze_and_store_query`. -/
def scalarTriples (qid now q : String) (t : Rat) (rc : Int) (s : Bool)
    (qtype : String) : List Triple :=
  [⟨qid, "has_sql", q⟩,
   ⟨qid, "execution_time", pyNumStr t⟩,
   ⟨qid, "result_count", toString rc⟩,
   ⟨qid, "success", pyBoolStr s⟩,
   ⟨qid, "timestamp", now⟩,
   ⟨qid, "query_type", qtype⟩]

/-- `uses_pattern` facts, one per pattern in order. -/
def patternTriples (qid : String) (pats : List String) : List Triple :=
  pats.map (fun pat => ⟨qid, "uses_pattern", pat⟩)

/-- `uses_table` plus the reverse `used_by_query` fact, per table. -/
def tableTriples (qid : String) (tbls : List String) : List Triple :=
  (tbls.map (fun t => [(⟨qid, "uses_table", t⟩ : Triple), ⟨t, "used_by_query", qid⟩])).flatten

/-- `uses_column` plus the reverse `used_by_query` fact, per column. -/
def columnTriples (qid : String) (cols : List String) : List Triple :=
  (cols.map (fun c => [(⟨qid, "uses_column", c⟩ : Triple), ⟨c, "used_by_query", qid⟩])).flatten

/-- The join facts: a `joined_with_{type}` edge between the joined tables and a
`performs_join` fact on the query key, per entry of `analysis["joins"]`. -/
def joinTriples (qid : String) (js : List JoinInfo) : List Triple :=
  (js.map (fun j =>
    [(⟨j.left, "joined_with_" ++ j.jtype, j.right⟩ : Triple),
     ⟨qid, "performs_join", j.left ++ "_" ++ j.right⟩])).flatten

/-- `uses_aggregation` and `aggregates_column` facts per aggregation entry. -/
def aggTriples (qid : String) (ags : List AggInfo) : List Triple :=
  (ags.map (fun ag =>
    [(⟨qid, "uses_aggregation", ag.func⟩ : Triple),
     ⟨qid, "aggregates_column", ag.column⟩])).flatten

/-- `filters_on` and `uses_operator` facts per filter entry. -/
def filterTriples (qid : String) (fs : List FilterInfo) : List Triple :=
  (fs.map (fun f =>
    [(⟨qid, "filters_on", f.column⟩ : Triple),
     ⟨qid, "uses_operator", f.operator⟩])).flatten

/-- The department facts of the user-context block: `works_in` and
`department_context` when a department is given (Python truthiness: an absent
or empty department writes nothing). -/
def departmentTriples (qid userId : String) : Option String → List Triple
  | some d =>
    if d = "" then []
    else [(⟨userId, "works_in", d⟩ : Triple), ⟨qid, "department_context", d⟩]
  | none => []

/-- The user-context facts: `written_by` with a `"unknown"` default, then the
department facts. -/
def contextTriples (qid : String) : Option UserContext → List Triple
  | none => []
  | some ctx =>
    let userId := ctx.userId.getD "unknown"
    (⟨qid, "written_by", userId⟩ : Triple) :: departmentTriples qid userId ctx.department

/-- The classification step of `_learn_performance_patterns`. -/
def classifyPerformance (t : Rat) : String :=
  if t < 100 then "FAST"
  else if t < 1000 then "MEDIUM"
  else "SLOW"

/-- `_learn_performance_patterns`: the `performance_class` fact on the query
key, then `observed_performance` per pattern and `query_performance` per table,
whose objects encode `f"{performance_class}_{execution_time}"`. -/
def performanceTriples (qid : String) (a : Analysis) (t : Rat) : List Triple :=
  let pc := classifyPerformance t
  (⟨qid, "performance_class", pc⟩ : Triple) ::
    (a.patterns.map (fun pat => (⟨pat, "observed_performance", pc ++ "_" ++ pyNumStr t⟩ : Triple))
      ++ a.tables.map (fun tb => (⟨tb, "query_performance", pc ++ "_" ++ pyNumStr t⟩ : Triple)))

/-- The table co-occurrence pass of `_learn_co_occurrence_patterns`: for every
position `i` and every later position `j`, a `co_occurs_with` edge in each
direction. -/
def pairCoTriples : List String → List Triple
  | [] => []
  | t :: rest =>
    (rest.map (fun u => [(⟨t, "co_occurs_with", u⟩ : Triple), ⟨u, "co_occurs_with", t⟩])).flatten
      ++ pairCoTriples rest

/-- The pattern-table pass of `_learn_co_occurrence_patterns`:
`commonly_used_with` per pattern and table. -/
def commonlyTriples (pats tbls : List String) : List Triple :=
  (pats.map (fun pat => tbls.map (fun tb => (⟨pat, "commonly_used_with", tb⟩ : Triple)))).flatten

/-- `_learn_co_occurrence_patterns`. -/
def coOccurrenceTriples (a : Analysis) : List Triple :=
  pairCoTriples a.tables ++ commonlyTriples a.patterns a.tables

/-- `analyze_and_store_query`: the sequence of triples appended to the store by
one `record()` call, in write order.  The parser's output `p`, the timestamp
`now` and the hash function `h` are inputs of the embedding (they come from
`sqlparse`, `datetime.utcnow()` and Python's `hash`). -/
def recordTriples (h : String → Int) (now q : String) (p : Parsed) (t : Rat)
    (rc : Int) (success : Bool) (ctx : Option UserContext) : List Triple :=
  let analysis := analyzeQueryStructure p
  let qid := queryKey h q
  scalarTriples qid now q t rc success analysis.type
    ++ patternTriples qid analysis.patterns
    ++ tableTriples qid analysis.tables
    ++ columnTriples qid analysis.columns
    ++ joinTriples qid analysis.joins
    ++ aggTriples qid analysis.aggregations
    ++ filterTriples qid analysis.filters
    ++ contextTriples qid ctx
    ++ performanceTriples qid analysis t
    ++ coOccurrenceTriples analysis

/-- The arguments of one `record()` call (timestamp included, since the wall
clock is external). -/
structure RecordInput where
  query : String
  parsed : Parsed
  now : String
  time : Rat
  resultCount : Int
  success : Bool
  ctx : Option UserContext

/-- A store produced by a sequence of `record()` calls on a fresh workspace:
each call appends its triples (spec 4.2: the store is append-only). -/
def buildStore (h : String → Int) (rs : List RecordInput) : KnowledgeGraph :=
  rs.foldl (fun kg r =>
    kg ++ recordTriples h r.now r.query r.parsed r.time r.resultCount r.success r.ctx) []

/-! ## Suggestion engine -/

/-- A suggestion record (`type`, `suggestion`, `reason`, `confidence`). -/
structure Suggestion where
  category : String
  text : String
  reason : String
  confidence : Rat
  deriving DecidableEq, Repr

/-- `_suggest_related_tables`: per referenced table, up to three
`co_occurs_with` targets not already referenced. -/
def suggestRelatedTables (kg : KnowledgeGraph) (currentTables : List String) :
    List Suggestion :=
  (currentTables.map (fun table =>
    ((getRelations kg table "co_occurs_with").take 3).filterMap (fun rt =>
      if rt ∈ currentTables then none
      else some ⟨"table", "JOIN " ++ rt, "Frequently used with " ++ table, mkRat 8 10⟩))).flatten

/-- `_suggest_joins`: for each pair of referenced tables (in list order), a
left-join suggestion when a `joined_with_LEFT` edge from the first to the
second has been learned. -/
def suggestJoins (kg : KnowledgeGraph) : List String → List Suggestion
  | [] => []
  | t1 :: rest =>
    rest.filterMap (fun t2 =>
      if t2 ∈ getRelations kg t1 "joined_with_LEFT" then
        some ⟨"join",
              "LEFT JOIN " ++ t2 ++ " ON " ++ t1 ++ ".id = " ++ t2 ++ "." ++ t1 ++ "_id",
              "Common join pattern observed", mkRat 9 10⟩
      else none)
      ++ suggestJoins kg rest

/-- `_suggest_columns`: per referenced table, up to five `commonly_selected`
columns. -/
def suggestColumns (kg : KnowledgeGraph) (currentTables : List String) :
    List Suggestion :=
  (currentTables.map (fun table =>
    ((getRelations kg table "commonly_selected").take 5).map (fun column =>
      (⟨"column", table ++ "." ++ column, "Frequently selected from " ++ table, mkRat 7 10⟩ :
        Suggestion)))).flatten

/-- The `ORDER BY` pattern suggestion of `_suggest_patterns`. -/
def orderBySuggestion : Suggestion :=
  ⟨"pattern", "ORDER BY column_name DESC", "Commonly used with GROUP BY", mkRat 8 10⟩

/-- The `HAVING` pattern suggestion of `_suggest_patterns`. -/
def havingSuggestion : Suggestion :=
  ⟨"pattern", "HAVING COUNT(*) > 10", "Filter aggregated results", mkRat 7 10⟩

/-- `_suggest_patterns`: `ORDER BY` when `GROUP_BY_PATTERN` is present without
`ORDER_BY_PATTERN`; `HAVING` when some pattern contains `"AGGREGATION"` and the
literal string `"HAVING"` is not among the patterns (note: the guard tests
`"HAVING"`, not `"HAVING_PATTERN"`). -/
def suggestPatterns (a : Analysis) : List Suggestion :=
  (if "GROUP_BY_PATTERN" ∈ a.patterns ∧ "ORDER_BY_PATTERN" ∉ a.patterns then
    [orderBySuggestion] else [])
  ++ (if (a.patterns.any (fun pat => strContains pat "AGGREGATION")) ∧ "HAVING" ∉ a.patterns then
    [havingSuggestion] else [])

/-- `_suggest_performance_optimizations`: per referenced table, a `LIMIT`
suggestion when more than two `query_performance` entries contain `"SLOW"`. -/
def suggestPerformanceOpts (kg : KnowledgeGraph) (currentTables : List String) :
    List Suggestion :=
  (currentTables.map (fun table =>
    let slowCount :=
      ((getRelations kg table "query_performance").filter
        (fun perf => strContains perf "SLOW")).length
    if slowCount > 2 then
      [(⟨"performance", "Consider adding LIMIT clause for " ++ table,
         "Large result sets observed for " ++ table, mkRat 6 10⟩ : Suggestion)]
    else [])).flatten

/-- The fallback analysis built by the `except` branch of
`get_intelligent_suggestions` (`{"tables": set(), "patterns": [], "columns":
set()}`); the missing keys are never read on the suggestion path, so their
values here are immaterial. -/
def fallbackAnalysis : Analysis :=
  { type := "UNKNOWN", patterns := [], tables := [], columns := [], joins := [],
    aggregations := [], filters := [], subqueries := 0, complexityScore := 0 }

/-- The analysis used by `get_intelligent_suggestions`: the analyzer's output
when the external parser produced a statement, the fallback otherwise. -/
def suggestionAnalysis : Option Parsed → Analysis
  | some p => analyzeQueryStructure p
  | none => fallbackAnalysis

/-- `get_intelligent_suggestions`: the five generators run in order (the first
one only when tables were referenced), their outputs are concatenated and the
first ten entries are returned. -/
def getIntelligentSuggestions (kg : KnowledgeGraph) (pq : Option Parsed) :
    List Suggestion :=
  let a := suggestionAnalysis pq
  let related := if a.tables ≠ [] then suggestRelatedTables kg a.tables else []
  (related
    ++ suggestJoins kg a.tables
    ++ suggestColumns kg a.tables
    ++ suggestPatterns a
    ++ suggestPerformanceOpts kg a.tables).take 10

/-! ## Workspace insights aggregator -/

/-- One step of the `Counter` updates in `get_workspace_insights`: counts are
kept as an association list in first-seen order. -/
def bumpCount : List (String × Nat) → String → List (String × Nat)
  | [], x => [(x, 1)]
  | (k, n) :: rest, x =>
    if k = x then (k, n + 1) :: rest else (k, n) :: bumpCount rest x

/-- `collections.Counter` over a list of keys. -/
def counterOf (l : List String) : List (String × Nat) :=
  l.foldl bumpCount []

/-- `Counter.most_common(n)`: entries sorted by descending count (stable, so
ties stay in first-seen order), truncated to `n`. -/
def mostCommon (c : List (String × Nat)) (n : Nat) : List (String × Nat) :=
  (List.insertionSort (fun a b : String × Nat => b.2 ≤ a.2) c).take n

/-- The constant record returned by `_analyze_complexity_trends`. -/
structure ComplexityTrends where
  avgComplexity : Rat
  trend : String
  mostComplexPattern : String
  deriving DecidableEq, Repr

/-- `_analyze_complexity_trends`: a fixed summary, independent of the scanned
relations. -/
def analyzeComplexityTrends (relations : List Triple) : ComplexityTrends :=
  ⟨mkRat 52 10, "increasing", "JOIN with multiple aggregations"⟩

/-- The dictionary returned by `get_workspace_insights`. -/
structure WorkspaceInsights where
  mostUsedTables : List (String × Nat)
  commonPatterns : List (String × Nat)
  perfFast : Nat
  perfMedium : Nat
  perfSlow : Nat
  totalQueriesAnalyzed : Nat
  uniqueTables : Nat
  complexityTrends : ComplexityTrends
  deriving DecidableEq, Repr

/-- `get_workspace_insights`: full scan of the store; usage counters for
`uses_table`/`uses_pattern` targets, the `performance_class` buckets, the
`has_sql` count, the number of distinct tables, and the complexity-trend
summary. -/
def getWorkspaceInsights (kg : KnowledgeGraph) : WorkspaceInsights :=
  let allRel := getAllRelations kg
  let tableUsage := counterOf ((allRel.filter (fun tr => tr.pred = "uses_table")).map (fun tr => tr.obj))
  let patternUsage := counterOf ((allRel.filter (fun tr => tr.pred = "uses_pattern")).map (fun tr => tr.obj))
  let perfBucket := fun (c : String) =>
    ((allRel.filter (fun tr => tr.pred = "performance_class" && tr.obj = c)).map
      (fun tr => tr.subj)).length
  { mostUsedTables := mostCommon tableUsage 10
    commonPatterns := mostCommon patternUsage 10
    perfFast := perfBucket "FAST"
    perfMedium := perfBucket "MEDIUM"
    perfSlow := perfBucket "SLOW"
    totalQueriesAnalyzed := (allRel.filter (fun tr => tr.pred = "has_sql")).length
    uniqueTables := tableUsage.length
    complexityTrends := analyzeComplexityTrends allRel }

/-! ## Concrete inputs used by closed instances -/

/-- The `sqlparse` shape of `"SELECT name FROM users JOIN orders"`: `SELECT` is
tagged `Keyword.DML`, `FROM` and `JOIN` are exact `Keyword` tokens, names are
`Name` leaves. -/
def sampleJoinParsed : Parsed :=
  ⟨[⟨TType.keywordDML, "SELECT"⟩, ⟨TType.keyword, "FROM"⟩, ⟨TType.keyword, "JOIN"⟩],
   [⟨TType.keywordDML, "SELECT"⟩, ⟨TType.name, "name"⟩, ⟨TType.keyword, "FROM"⟩,
    ⟨TType.name, "users"⟩, ⟨TType.keyword, "JOIN"⟩, ⟨TType.name, "orders"⟩],
   "SELECT name FROM users JOIN orders"⟩

/-- The `sqlparse` shape of the unparsable text `"???"`: placeholder leaves,
no keyword token. -/
def unparsableParsed : Parsed :=
  ⟨[⟨TType.other, "?"⟩, ⟨TType.other, "?"⟩, ⟨TType.other, "?"⟩],
   [⟨TType.other, "?"⟩, ⟨TType.other, "?"⟩, ⟨TType.other, "?"⟩],
   "???"⟩

/-- The `sqlparse` shape of the fragment `"FROM users"`: the first (and only)
exact `Keyword` token is `FROM`. -/
def fromUsersParsed : Parsed :=
  ⟨[⟨TType.keyword, "FROM"⟩, ⟨TType.name, "users"⟩],
   [⟨TType.keyword, "FROM"⟩, ⟨TType.name, "users"⟩],
   "FROM users"⟩

/-- The `sqlparse` shape of
`"SELECT a, COUNT(b) FROM t GROUP BY a HAVING COUNT(b) > 1"`: the analysis
carries `GROUP_BY_PATTERN`, `HAVING_PATTERN` and `COUNT_AGGREGATION`. -/
def havingParsed : Parsed :=
  ⟨[⟨TType.keywordDML, "SELECT"⟩, ⟨TType.keyword, "FROM"⟩, ⟨TType.keyword, "GROUP BY"⟩,
    ⟨TType.keyword, "HAVING"⟩],
   [⟨TType.keywordDML, "SELECT"⟩, ⟨TType.name, "a"⟩, ⟨TType.name, "b"⟩, ⟨TType.keyword, "FROM"⟩,
    ⟨TType.name, "t"⟩, ⟨TType.keyword, "GROUP BY"⟩, ⟨TType.name, "a"⟩,
    ⟨TType.keyword, "HAVING"⟩, ⟨TType.name, "b"⟩],
   "SELECT a, COUNT(b) FROM t GROUP BY a HAVING COUNT(b) > 1"⟩

/-- An analysis with a given type and with every count at zero. -/
def emptyAnalysisOfType (ty : String) : Analysis :=
  { type := ty, patterns := [], tables := [], columns := [], joins := [],
    aggregations := [], filters := [], subqueries := 0, complexityScore := 0 }

/-! ## Lemmas about the analyzer -/

/-- The outputs of the keyword-pattern map are twelve fixed strings. -/
theorem patternOfKeyword_cases {kw pat : String} (h : patternOfKeyword kw = some pat) :
    pat ∈ ["JOIN_PATTERN", "INNER_JOIN_PATTERN", "LEFT_JOIN_PATTERN", "RIGHT_JOIN_PATTERN",
           "FULL_JOIN_PATTERN", "GROUP_BY_PATTERN", "ORDER_BY_PATTERN", "HAVING_PATTERN",
           "UNION_PATTERN", "INTERSECT_PATTERN", "EXCEPT_PATTERN", "CTE_PATTERN"] := by
  unfold patternOfKeyword at h
  split_ifs at h with h1 h2 h3 h4
  · simp only [List.mem_cons, List.not_mem_nil, or_false] at h1
    rcases h1 with rfl | rfl | rfl | rfl | rfl <;>
      (injection h with h5; subst h5; decide)
  · simp only [List.mem_cons, List.not_mem_nil, or_false] at h2
    rcases h2 with rfl | rfl | rfl <;> (injection h with h5; subst h5; decide)
  · simp only [List.mem_cons, List.not_mem_nil, or_false] at h3
    rcases h3 with rfl | rfl | rfl <;> (injection h with h5; subst h5; decide)
  · injection h with h5; subst h5; decide

/-- Every pattern produced by the token walk comes from the keyword map. -/
theorem tokenPatterns_shape :
    ∀ (ts : List Token) (x : String), x ∈ tokenPatterns ts →
      ∃ kw, patternOfKeyword kw = some x := by
  intro ts
  induction ts with
  | nil => intro x hx; simp [tokenPatterns] at hx
  | cons tk rest ih =>
    intro x hx
    simp only [tokenPatterns, List.mem_append] at hx
    rcases hx with hx | hx
    · split at hx
      · simp only [Option.mem_toList, Option.mem_def] at hx
        exact ⟨strUpper tk.value, hx⟩
      · cases hx
    · exact ih x hx

/-- Every pattern produced by the aggregation scan is `{FUNC}_AGGREGATION` for
one of the seven function names. -/
theorem aggPatterns_shape {qs x : String} (h : x ∈ aggPatterns qs) :
    ∃ f, f ∈ aggFunctions ∧ x = f ++ "_AGGREGATION" := by
  simp only [aggPatterns, List.mem_map, List.mem_filter] at h
  obtain ⟨f, ⟨hf, _⟩, rfl⟩ := h
  exact ⟨f, hf, rfl⟩

/-- The literal string `"HAVING"` is never among an analysis's patterns. -/
theorem analysis_patterns_ne_having {p : Parsed} {x : String}
    (h : x ∈ (analyzeQueryStructure p).patterns) : x ≠ "HAVING" := by
  have hp : x ∈ tokenPatterns p.flat ++ aggPatterns (strUpper p.text) := h
  rw [List.mem_append] at hp
  rcases hp with hp | hp
  · obtain ⟨kw, hkw⟩ := tokenPatterns_shape _ _ hp
    have h12 := patternOfKeyword_cases hkw
    fin_cases h12 <;> decide
  · obtain ⟨f, hf, rfl⟩ := aggPatterns_shape hp
    fin_cases hf <;> decide

/-- **C9 (amended).** The analyzer's query type is either `"UNKNOWN"` or the
uppercased value of some top-level token whose type tag is exactly `Keyword`;
it is not restricted to the `SELECT`/`INSERT`/`UPDATE`/`DELETE`/`UNKNOWN` enum
(see the counterexample: `sqlparse` tags the DML verbs as `Keyword.DML`, which
the identity comparison does not match, and other keywords pass through
verbatim). -/
theorem queryType_from_first_keyword (p : Parsed) :
    getQueryType p = "UNKNOWN" ∨
      ∃ tk, tk ∈ p.tokens ∧ tk.ttype = TType.keyword ∧ getQueryType p = strUpper tk.value := by
  unfold getQueryType
  cases hf : p.tokens.find? (fun tk => tk.ttype = TType.keyword) with
  | none => exact Or.inl rfl
  | some tk =>
    have hmem := List.mem_of_find?_eq_some hf
    have hty := List.find?_some hf
    simp only [decide_eq_true_eq] at hty
    by_cases he : strUpper tk.value = ""
    · exact Or.inl (by simp [he])
    · exact Or.inr ⟨tk, hmem, hty, by simp [he]⟩

/-- **C9 (counterexample).** On the fragment `FROM users` the computed type is
`"FROM"`, which is none of the five enum members (the claim requires
`"UNKNOWN"` here). -/
theorem queryType_counterexample :
    getQueryType fromUsersParsed = "FROM" ∧
      "FROM" ∉ ["SELECT", "INSERT", "UPDATE", "DELETE", "UNKNOWN"] := by decide

/-- **C10.** The complexity-trends summary of the workspace insights is the
same constant record on every store, the empty store included. -/
theorem complexityTrends_constant (kg : KnowledgeGraph) :
    (getWorkspaceInsights kg).complexityTrends =
      ⟨mkRat 52 10, "increasing", "JOIN with multiple aggregations"⟩ := rfl

/-! ## Complexity score (C4) -/

/-- **C4 (counterexample).** Count-wise monotonicity fails as stated: two
analyses with identical (all-zero) pattern/table/join/aggregation/subquery
counts but types `INSERT` and `SELECT` score 2 − 5 = −3 and 1 − 5 = −4, so the
`SELECT` analysis scores strictly less although no count decreased. -/
theorem complexity_counts_not_monotonic :
    ¬ (∀ (a b : Analysis) (qsA qsB : String),
        a.patterns.length ≤ b.patterns.length →
        a.tables.length ≤ b.tables.length →
        a.joins.length ≤ b.joins.length →
        a.aggregations.length ≤ b.aggregations.length →
        countSubstr qsA "SELECT" ≤ countSubstr qsB "SELECT" →
        calculateComplexity a qsA ≤ calculateComplexity b qsB) := by
  intro hall
  have h := hall (emptyAnalysisOfType "INSERT") (emptyAnalysisOfType "SELECT") "" ""
    (by decide) (by decide) (by decide) (by decide) (by decide)
  revert h
  decide

/-- **C4 (amended).** The score is monotonic in the pattern/table/join/
aggregation/subquery counts once the query type and the window-function marker
are held fixed: with equal types, `OVER` in the first text implying `OVER` in
the second, and each count no smaller, the score does not decrease. -/
theorem complexity_monotonic_same_type (a b : Analysis) (qsA qsB : String)
    (hty : a.type = b.type)
    (hov : strContains qsA "OVER" = true → strContains qsB "OVER" = true)
    (hp : a.patterns.length ≤ b.patterns.length)
    (ht : a.tables.length ≤ b.tables.length)
    (hj : a.joins.length ≤ b.joins.length)
    (hagg : a.aggregations.length ≤ b.aggregations.length)
    (hsub : countSubstr qsA "SELECT" ≤ countSubstr qsB "SELECT") :
    calculateComplexity a qsA ≤ calculateComplexity b qsB := by
  simp only [calculateComplexity, hty]
  cases hA : strContains qsA "OVER" <;> cases hB : strContains qsB "OVER" <;>
    simp only [Bool.false_eq_true, if_false, if_true, reduceIte]
  · generalize (if b.type = "SELECT" then (1 : Int)
      else if b.type ∈ ["INSERT", "UPDATE", "DELETE"] then 2 else 0) = base
    omega
  · generalize (if b.type = "SELECT" then (1 : Int)
      else if b.type ∈ ["INSERT", "UPDATE", "DELETE"] then 2 else 0) = base
    omega
  · exact absurd (hov hA) (by rw [hB]; decide)
  · generalize (if b.type = "SELECT" then (1 : Int)
      else if b.type ∈ ["INSERT", "UPDATE", "DELETE"] then 2 else 0) = base
    omega

/-- Closed instance of the amended monotonicity at concrete analyses. -/
theorem complexity_monotonic_same_type_witness :
    ((emptyAnalysisOfType "SELECT").patterns.length ≤
        ({ emptyAnalysisOfType "SELECT" with tables := ["users"] } : Analysis).patterns.length) ∧
    calculateComplexity (emptyAnalysisOfType "SELECT") "" ≤
      calculateComplexity ({ emptyAnalysisOfType "SELECT" with tables := ["users"] }) "SELECT" :=
  ⟨by decide,
   complexity_monotonic_same_type (emptyAnalysisOfType "SELECT")
     ({ emptyAnalysisOfType "SELECT" with tables := ["users"] }) "" "SELECT"
     (by decide) (by decide) (by decide) (by decide) (by decide) (by decide) (by decide)⟩

/-! ## Pattern suggestions (C5) -/

/-- **C5 (counterexample).** On a query whose analysis contains both an
aggregation pattern and `HAVING_PATTERN`, the claim requires no `HAVING`
suggestion, yet the engine emits one: the absence guard tests the literal
string `"HAVING"`, which is never a member of the patterns. -/
theorem having_suggestion_counterexample :
    "HAVING_PATTERN" ∈ (analyzeQueryStructure havingParsed).patterns ∧
    (analyzeQueryStructure havingParsed).patterns.any
      (fun pat => strContains pat "AGGREGATION") = true ∧
    havingSuggestion ∈ suggestPatterns (analyzeQueryStructure havingParsed) := by decide

/-- **C5 (amended).** For every analyzed query, the `HAVING` suggestion
(confidence 0.7) is emitted iff some pattern contains `"AGGREGATION"`; the
presence of `HAVING_PATTERN` does not suppress it, because the guard compares
against the literal `"HAVING"`, which never occurs among the patterns. -/
theorem having_suggested_iff_aggregation (p : Parsed) :
    havingSuggestion ∈ suggestPatterns (analyzeQueryStructure p) ↔
      (analyzeQueryStructure p).patterns.any
        (fun pat => strContains pat "AGGREGATION") = true := by
  have hnh : "HAVING" ∉ (analyzeQueryStructure p).patterns := fun hmem =>
    analysis_patterns_ne_having hmem rfl
  constructor
  · intro h
    unfold suggestPatterns at h
    rw [List.mem_append] at h
    rcases h with h | h
    · split at h
      · simp only [List.mem_singleton] at h
        exact absurd h (by decide)
      · cases h
    · split at h
      · next hc => exact hc.1
      · cases h
  · intro hagg
    unfold suggestPatterns
    rw [List.mem_append]
    exact Or.inr (by rw [if_pos ⟨hagg, hnh⟩]; exact List.mem_singleton.mpr rfl)

/-! ## Suggestion concatenation and cap (C2) -/

/-- With no referenced tables the related-tables generator yields nothing. -/
theorem suggestRelatedTables_nil (kg : KnowledgeGraph) :
    suggestRelatedTables kg [] = [] := rfl

/-- **C2.** The suggestion list is exactly the five generators' outputs
concatenated in their fixed order and truncated to the first ten entries — no
confidence sort happens before the truncation — and it never has more than ten
entries, whatever the store contains. -/
theorem suggestions_concat_capped (kg : KnowledgeGraph) (pq : Option Parsed) :
    getIntelligentSuggestions kg pq =
      (suggestRelatedTables kg (suggestionAnalysis pq).tables
        ++ suggestJoins kg (suggestionAnalysis pq).tables
        ++ suggestColumns kg (suggestionAnalysis pq).tables
        ++ suggestPatterns (suggestionAnalysis pq)
        ++ suggestPerformanceOpts kg (suggestionAnalysis pq).tables).take 10 ∧
    (getIntelligentSuggestions kg pq).length ≤ 10 := by
  have hmain : getIntelligentSuggestions kg pq =
      (suggestRelatedTables kg (suggestionAnalysis pq).tables
        ++ suggestJoins kg (suggestionAnalysis pq).tables
        ++ suggestColumns kg (suggestionAnalysis pq).tables
        ++ suggestPatterns (suggestionAnalysis pq)
        ++ suggestPerformanceOpts kg (suggestionAnalysis pq).tables).take 10 := by
    simp only [getIntelligentSuggestions]
    by_cases htb : (suggestionAnalysis pq).tables = []
    · rw [if_neg (by simp [htb]), htb, suggestRelatedTables_nil]
    · rw [if_pos htb]
  refine ⟨hmain, ?_⟩
  rw [hmain, List.length_take]
  exact min_le_left _ _

/-! ## Query keys (C8) -/

/-- **C8 (counterexample).** Key uniqueness fails on concrete texts: the
distinct queries `"q15"` and `"q20"` receive the same key `query_24624`
(`hash(query) % 100000` has only 100000 possible residues). -/
theorem queryKey_collision_concrete :
    ¬ (∀ q1 q2 : String, q1 ≠ q2 → queryKey pyHash q1 ≠ queryKey pyHash q2) := by
  intro hall
  exact hall "q15" "q20" (by decide) (by decide)

/-- **C8 (amended).** The key is not unique per distinct query text: for every
hash function, some two distinct texts are assigned the same key, since
`hash(query) % 100000` ranges over only 100000 residues (pigeonhole). -/
theorem queryKey_not_injective (h : String → Int) :
    ∃ q1 q2 : String, q1 ≠ q2 ∧ queryKey h q1 = queryKey h q2 := by
  have h100 : (100000 : Int) ≠ 0 := by norm_num
  have hres : ∀ n : ℕ, 0 ≤ h (String.mk (List.replicate n 'a')) % 100000 ∧
      h (String.mk (List.replicate n 'a')) % 100000 < 100000 := fun n =>
    ⟨Int.emod_nonneg _ h100, Int.emod_lt_of_pos _ (by norm_num)⟩
  obtain ⟨m, n, hmn, hfeq⟩ := Finite.exists_ne_map_eq_of_infinite
    (fun n : ℕ => (⟨(h (String.mk (List.replicate n 'a')) % 100000).toNat, by
      have h1 := (hres n).1
      have h2 := (hres n).2
      omega⟩ : Fin 100000))
  refine ⟨String.mk (List.replicate m 'a'), String.mk (List.replicate n 'a'), ?_, ?_⟩
  · intro he
    apply hmn
    have hlen : (String.mk (List.replicate m 'a')).data.length =
        (String.mk (List.replicate n 'a')).data.length := by rw [he]
    simpa using hlen
  · have hv := congrArg Fin.val hfeq
    simp only at hv
    have h1 := (hres m).1
    have h2 := (hres n).1
    unfold queryKey
    have : h (String.mk (List.replicate m 'a')) % 100000 =
        h (String.mk (List.replicate n 'a')) % 100000 := by omega
    rw [this]

/-! ## Predicates used by each write block of `record()` -/

/-- The scalar block writes six fixed predicates. -/
theorem scalarTriples_pred {qid now q ty : String} {t : Rat} {rc : Int} {s : Bool}
    {tr : Triple} (h : tr ∈ scalarTriples qid now q t rc s ty) :
    tr.pred ∈ ["has_sql", "execution_time", "result_count", "success", "timestamp",
               "query_type"] := by
  simp only [scalarTriples, List.mem_cons, List.not_mem_nil, or_false] at h
  rcases h with rfl | rfl | rfl | rfl | rfl | rfl <;> simp

/-- The pattern block only writes `uses_pattern`. -/
theorem patternTriples_pred {qid : String} {pats : List String} {tr : Triple}
    (h : tr ∈ patternTriples qid pats) : tr.pred = "uses_pattern" := by
  simp only [patternTriples, List.mem_map] at h
  obtain ⟨pat, -, rfl⟩ := h
  rfl

/-- The table block writes `uses_table` and `used_by_query`. -/
theorem tableTriples_pred {qid : String} {tbls : List String} {tr : Triple}
    (h : tr ∈ tableTriples qid tbls) :
    tr.pred = "uses_table" ∨ tr.pred = "used_by_query" := by
  simp only [tableTriples, List.mem_flatten, List.mem_map] at h
  obtain ⟨l2, ⟨tb, -, rfl⟩, hm⟩ := h
  simp only [List.mem_cons, List.not_mem_nil, or_false] at hm
  rcases hm with rfl | rfl
  · exact Or.inl rfl
  · exact Or.inr rfl

/-- The column block writes `uses_column` and `used_by_query`. -/
theorem columnTriples_pred {qid : String} {cols : List String} {tr : Triple}
    (h : tr ∈ columnTriples qid cols) :
    tr.pred = "uses_column" ∨ tr.pred = "used_by_query" := by
  simp only [columnTriples, List.mem_flatten, List.mem_map] at h
  obtain ⟨l2, ⟨c, -, rfl⟩, hm⟩ := h
  simp only [List.mem_cons, List.not_mem_nil, or_false] at hm
  rcases hm with rfl | rfl
  · exact Or.inl rfl
  · exact Or.inr rfl

/-- The aggregation block writes `uses_aggregation` and `aggregates_column`. -/
theorem aggTriples_pred {qid : String} {ags : List AggInfo} {tr : Triple}
    (h : tr ∈ aggTriples qid ags) :
    tr.pred = "uses_aggregation" ∨ tr.pred = "aggregates_column" := by
  simp only [aggTriples, List.mem_flatten, List.mem_map] at h
  obtain ⟨l2, ⟨ag, -, rfl⟩, hm⟩ := h
  simp only [List.mem_cons, List.not_mem_nil, or_false] at hm
  rcases hm with rfl | rfl
  · exact Or.inl rfl
  · exact Or.inr rfl

/-- The user-context block writes `written_by`, `works_in` and
`department_context`. -/
theorem contextTriples_pred {qid : String} {ctx : Option UserContext} {tr : Triple}
    (h : tr ∈ contextTriples qid ctx) :
    tr.pred = "written_by" ∨ tr.pred = "works_in" ∨ tr.pred = "department_context" := by
  cases ctx with
  | none => cases h
  | some c =>
    simp only [contextTriples, List.mem_cons] at h
    rcases h with rfl | h
    · exact Or.inl rfl
    · cases hd : c.department with
      | none => rw [hd] at h; cases h
      | some d =>
        rw [hd] at h
        by_cases hde : d = ""
        · rw [departmentTriples, if_pos hde] at h
          cases h
        · rw [departmentTriples, if_neg hde] at h
          simp only [List.mem_cons, List.not_mem_nil, or_false] at h
          rcases h with rfl | rfl
          · exact Or.inr (Or.inl rfl)
          · exact Or.inr (Or.inr rfl)

/-- The performance block writes `performance_class`, `observed_performance`
and `query_performance`. -/
theorem performanceTriples_pred {qid : String} {a : Analysis} {t : Rat} {tr : Triple}
    (h : tr ∈ performanceTriples qid a t) :
    tr.pred = "performance_class" ∨ tr.pred = "observed_performance" ∨
      tr.pred = "query_performance" := by
  simp only [performanceTriples, List.mem_cons, List.mem_append, List.mem_map] at h
  rcases h with rfl | ⟨pat, -, rfl⟩ | ⟨tb, -, rfl⟩
  · exact Or.inl rfl
  · exact Or.inr (Or.inl rfl)
  · exact Or.inr (Or.inr rfl)

/-- The pairwise co-occurrence block only writes `co_occurs_with`. -/
theorem pairCoTriples_pred : ∀ {l : List String} {tr : Triple},
    tr ∈ pairCoTriples l → tr.pred = "co_occurs_with" := by
  intro l
  induction l with
  | nil => intro tr h; cases h
  | cons t rest ih =>
    intro tr h
    simp only [pairCoTriples, List.mem_append, List.mem_flatten, List.mem_map] at h
    rcases h with ⟨l2, ⟨u, -, rfl⟩, hm⟩ | h
    · simp only [List.mem_cons, List.not_mem_nil, or_false] at hm
      rcases hm with rfl | rfl <;> rfl
    · exact ih h

/-- The pattern-table block only writes `commonly_used_with`. -/
theorem commonlyTriples_pred {pats tbls : List String} {tr : Triple}
    (h : tr ∈ commonlyTriples pats tbls) : tr.pred = "commonly_used_with" := by
  simp only [commonlyTriples, List.mem_flatten, List.mem_map] at h
  obtain ⟨l2, ⟨pat, -, rfl⟩, hm⟩ := h
  obtain ⟨tb, -, rfl⟩ := List.mem_map.mp hm
  rfl

/-- Every triple written by `record()` belongs to one of its write blocks (the
join and filter blocks are dropped: the analyzer always leaves `joins` and
`filters` empty). -/
theorem mem_recordTriples_cases {h : String → Int} {now q : String} {p : Parsed}
    {t : Rat} {rc : Int} {s : Bool} {ctx : Option UserContext} {tr : Triple}
    (htr : tr ∈ recordTriples h now q p t rc s ctx) :
    tr ∈ scalarTriples (queryKey h q) now q t rc s (analyzeQueryStructure p).type ∨
    tr ∈ patternTriples (queryKey h q) (analyzeQueryStructure p).patterns ∨
    tr ∈ tableTriples (queryKey h q) (analyzeQueryStructure p).tables ∨
    tr ∈ columnTriples (queryKey h q) (analyzeQueryStructure p).columns ∨
    tr ∈ aggTriples (queryKey h q) (analyzeQueryStructure p).aggregations ∨
    tr ∈ contextTriples (queryKey h q) ctx ∨
    tr ∈ performanceTriples (queryKey h q) (analyzeQueryStructure p) t ∨
    tr ∈ pairCoTriples (analyzeQueryStructure p).tables ∨
    tr ∈ commonlyTriples (analyzeQueryStructure p).patterns (analyzeQueryStructure p).tables := by
  have hj : joinTriples (queryKey h q) (analyzeQueryStructure p).joins = [] := rfl
  have hfil : filterTriples (queryKey h q) (analyzeQueryStructure p).filters = [] := rfl
  simp only [recordTriples, coOccurrenceTriples, hj, hfil, List.mem_append,
    List.not_mem_nil, or_false, false_or] at htr
  tauto

/-- Conversely, the co-occurrence block is contained in the written triples. -/
theorem pairCo_sub_recordTriples {h : String → Int} {now q : String} {p : Parsed}
    {t : Rat} {rc : Int} {s : Bool} {ctx : Option UserContext} {tr : Triple}
    (htr : tr ∈ pairCoTriples (analyzeQueryStructure p).tables) :
    tr ∈ recordTriples h now q p t rc s ctx := by
  simp only [recordTriples, coOccurrenceTriples, List.mem_append]
  tauto

/-! ## Co-occurrence symmetry -/

/-- Within the pairwise block, membership is symmetric in the two tables. -/
theorem pairCoTriples_swap : ∀ {l : List String} {a b : String},
    (⟨a, "co_occurs_with", b⟩ : Triple) ∈ pairCoTriples l →
    (⟨b, "co_occurs_with", a⟩ : Triple) ∈ pairCoTriples l := by
  intro l
  induction l with
  | nil => intro a b h; cases h
  | cons t rest ih =>
    intro a b h
    rw [pairCoTriples, List.mem_append] at h ⊢
    rcases h with h | h
    · left
      obtain ⟨l2, hl2, hm⟩ := List.mem_flatten.mp h
      obtain ⟨u, hu, rfl⟩ := List.mem_map.mp hl2
      refine List.mem_flatten.mpr ⟨_, List.mem_map.mpr ⟨u, hu, rfl⟩, ?_⟩
      rcases List.mem_cons.mp hm with he | he
      · injection he with h1 h2 h3
        rw [h1, h3]
        exact List.mem_cons_of_mem _ (List.mem_singleton.mpr rfl)
      · injection List.mem_singleton.mp he with h1 h2 h3
        rw [h1, h3]
        exact List.mem_cons_self _ _
    · exact Or.inr (ih h)

/-- Any two distinct members of the table list get a `co_occurs_with` edge in
the pairwise block. -/
theorem pairCoTriples_mem_of : ∀ {l : List String} {a b : String},
    a ∈ l → b ∈ l → a ≠ b →
    (⟨a, "co_occurs_with", b⟩ : Triple) ∈ pairCoTriples l := by
  intro l
  induction l with
  | nil => intro a b ha _ _; cases ha
  | cons t rest ih =>
    intro a b ha hb hne
    rw [pairCoTriples, List.mem_append]
    rcases List.mem_cons.mp ha with rfl | ha2
    · have hb2 : b ∈ rest := by
        rcases List.mem_cons.mp hb with rfl | hb2
        · exact absurd rfl hne
        · exact hb2
      exact Or.inl (List.mem_flatten.mpr
        ⟨_, List.mem_map.mpr ⟨b, hb2, rfl⟩, List.mem_cons_self _ _⟩)
    · rcases List.mem_cons.mp hb with rfl | hb2
      · exact Or.inl (List.mem_flatten.mpr
          ⟨_, List.mem_map.mpr ⟨a, ha2, rfl⟩,
           List.mem_cons_of_mem _ (List.mem_singleton.mpr rfl)⟩)
      · exact Or.inr (ih ha2 hb2 hne)

/-- A `co_occurs_with` triple written by `record()` comes from the pairwise
block: every other block uses a different predicate. -/
theorem recordTriples_co_iff {h : String → Int} {now q : String} {p : Parsed}
    {t : Rat} {rc : Int} {s : Bool} {ctx : Option UserContext} {a b : String} :
    (⟨a, "co_occurs_with", b⟩ : Triple) ∈ recordTriples h now q p t rc s ctx ↔
    (⟨a, "co_occurs_with", b⟩ : Triple) ∈ pairCoTriples (analyzeQueryStructure p).tables := by
  constructor
  · intro htr
    rcases mem_recordTriples_cases htr with hc | hc | hc | hc | hc | hc | hc | hc | hc
    · exact absurd (scalarTriples_pred hc)
        (show ("co_occurs_with" : String) ∉ ["has_sql", "execution_time", "result_count",
          "success", "timestamp", "query_type"] by decide)
    · exact absurd (patternTriples_pred hc)
        (show ("co_occurs_with" : String) ≠ "uses_pattern" by decide)
    · rcases tableTriples_pred hc with he | he
      · exact absurd he (show ("co_occurs_with" : String) ≠ "uses_table" by decide)
      · exact absurd he (show ("co_occurs_with" : String) ≠ "used_by_query" by decide)
    · rcases columnTriples_pred hc with he | he
      · exact absurd he (show ("co_occurs_with" : String) ≠ "uses_column" by decide)
      · exact absurd he (show ("co_occurs_with" : String) ≠ "used_by_query" by decide)
    · rcases aggTriples_pred hc with he | he
      · exact absurd he (show ("co_occurs_with" : String) ≠ "uses_aggregation" by decide)
      · exact absurd he (show ("co_occurs_with" : String) ≠ "aggregates_column" by decide)
    · rcases contextTriples_pred hc with he | he | he
      · exact absurd he (show ("co_occurs_with" : String) ≠ "written_by" by decide)
      · exact absurd he (show ("co_occurs_with" : String) ≠ "works_in" by decide)
      · exact absurd he (show ("co_occurs_with" : String) ≠ "department_context" by decide)
    · rcases performanceTriples_pred hc with he | he | he
      · exact absurd he (show ("co_occurs_with" : String) ≠ "performance_class" by decide)
      · exact absurd he (show ("co_occurs_with" : String) ≠ "observed_performance" by decide)
      · exact absurd he (show ("co_occurs_with" : String) ≠ "query_performance" by decide)
    · exact hc
    · exact absurd (commonlyTriples_pred hc)
        (show ("co_occurs_with" : String) ≠ "commonly_used_with" by decide)
  · intro hpc
    exact pairCo_sub_recordTriples hpc

/-- Object membership in a `get` is triple membership in the store. -/
theorem getRelations_mem {kg : KnowledgeGraph} {s p o : String} :
    o ∈ getRelations kg s p ↔ (⟨s, p, o⟩ : Triple) ∈ kg := by
  constructor
  · intro h
    simp only [getRelations, List.mem_map] at h
    obtain ⟨tr, htr, ho⟩ := h
    rw [List.mem_filter] at htr
    obtain ⟨hmem, hcond⟩ := htr
    simp only [Bool.and_eq_true, decide_eq_true_eq] at hcond
    have he : (⟨s, p, o⟩ : Triple) = tr := by
      rw [← hcond.1, ← hcond.2, ← ho]
    rw [he]
    exact hmem
  · intro h
    simp only [getRelations, List.mem_map]
    refine ⟨⟨s, p, o⟩, ?_, rfl⟩
    rw [List.mem_filter]
    exact ⟨h, by simp⟩

/-- A store built by folded appends is the concatenation of the per-record
batches. -/
theorem foldl_append_flatten {α β : Type} (f : β → List α) :
    ∀ (rs : List β) (acc : List α),
      rs.foldl (fun kg r => kg ++ f r) acc = acc ++ (rs.map f).flatten := by
  intro rs
  induction rs with
  | nil => intro acc; simp
  | cons r rest ih => intro acc; simp [ih, List.append_assoc]

/-- `buildStore` unfolded to the concatenation of the record batches. -/
theorem buildStore_eq (h : String → Int) (rs : List RecordInput) :
    buildStore h rs = (rs.map (fun r =>
      recordTriples h r.now r.query r.parsed r.time r.resultCount r.success r.ctx)).flatten := by
  unfold buildStore
  rw [foldl_append_flatten]
  rfl

/-- `co_occurs_with` membership in any built store is symmetric. -/
theorem buildStore_co_swap {h : String → Int} {rs : List RecordInput} {a b : String}
    (hmem : (⟨a, "co_occurs_with", b⟩ : Triple) ∈ buildStore h rs) :
    (⟨b, "co_occurs_with", a⟩ : Triple) ∈ buildStore h rs := by
  rw [buildStore_eq] at hmem ⊢
  simp only [List.mem_flatten, List.mem_map] at hmem ⊢
  obtain ⟨l2, ⟨r, hr, rfl⟩, hm⟩ := hmem
  exact ⟨_, ⟨r, hr, rfl⟩, recordTriples_co_iff.mpr (pairCoTriples_swap (recordTriples_co_iff.mp hm))⟩

/-- **C6.** First part: for any recorded query, any two distinct tables of its
analysis get `co_occurs_with` edges written in both directions.  Second part:
on any store built from a sequence of `record()` calls,
`get(t1, co_occurs_with)` contains `t2` iff `get(t2, co_occurs_with)` contains
`t1`. -/
theorem cooccurrence_bidirectional_symmetric :
    (∀ (h : String → Int) (now q : String) (p : Parsed) (t : Rat) (rc : Int) (s : Bool)
       (ctx : Option UserContext) (t1 t2 : String), t1 ≠ t2 →
       t1 ∈ (analyzeQueryStructure p).tables → t2 ∈ (analyzeQueryStructure p).tables →
       (⟨t1, "co_occurs_with", t2⟩ : Triple) ∈ recordTriples h now q p t rc s ctx ∧
       (⟨t2, "co_occurs_with", t1⟩ : Triple) ∈ recordTriples h now q p t rc s ctx) ∧
    (∀ (h : String → Int) (rs : List RecordInput) (t1 t2 : String),
       t2 ∈ getRelations (buildStore h rs) t1 "co_occurs_with" ↔
       t1 ∈ getRelations (buildStore h rs) t2 "co_occurs_with") := by
  constructor
  · intro h now q p t rc s ctx t1 t2 hne h1 h2
    exact ⟨pairCo_sub_recordTriples (pairCoTriples_mem_of h1 h2 hne),
           pairCo_sub_recordTriples (pairCoTriples_mem_of h2 h1 (Ne.symm hne))⟩
  · intro h rs t1 t2
    constructor
    · intro hm
      exact getRelations_mem.mpr (buildStore_co_swap (getRelations_mem.mp hm))
    · intro hm
      exact getRelations_mem.mpr (buildStore_co_swap (getRelations_mem.mp hm))

/-- Closed instance of C6 on the sample join query: `users` and `orders` are
distinct tables of its analysis and both `co_occurs_with` directions are
written. -/
theorem cooccurrence_bidirectional_witness :
    (("users" : String) ≠ "orders" ∧
      "users" ∈ (analyzeQueryStructure sampleJoinParsed).tables ∧
      "orders" ∈ (analyzeQueryStructure sampleJoinParsed).tables) ∧
    ((⟨"users", "co_occurs_with", "orders"⟩ : Triple) ∈
        recordTriples pyHash "t0" "SELECT name FROM users JOIN orders" sampleJoinParsed 50 10
          true none ∧
      (⟨"orders", "co_occurs_with", "users"⟩ : Triple) ∈
        recordTriples pyHash "t0" "SELECT name FROM users JOIN orders" sampleJoinParsed 50 10
          true none) :=
  ⟨⟨by decide, by decide, by decide⟩,
   cooccurrence_bidirectional_symmetric.1 pyHash "t0" "SELECT name FROM users JOIN orders"
     sampleJoinParsed 50 10 true none "users" "orders" (by decide) (by decide) (by decide)⟩

/-! ## Join facts (C1) -/

/-- **C1 (amended / as the code behaves).** The write loop for joins exists,
but the analyzer never populates `analysis["joins"]`, so its body never runs:
for every query — joins included — `record()` writes no `performs_join` fact
and no `joined_with_{type}` edge (no written predicate even contains the text
`joined_with`). -/
theorem record_join_facts_never_written :
    (∀ p : Parsed, (analyzeQueryStructure p).joins = []) ∧
    (∀ (h : String → Int) (now q : String) (p : Parsed) (t : Rat) (rc : Int) (s : Bool)
       (ctx : Option UserContext) (tr : Triple), tr ∈ recordTriples h now q p t rc s ctx →
       tr.pred ≠ "performs_join" ∧ strContains tr.pred "joined_with" = false) := by
  constructor
  · intro p
    rfl
  · intro h now q p t rc s ctx tr htr
    rcases mem_recordTriples_cases htr with hc | hc | hc | hc | hc | hc | hc | hc | hc
    · have hp := scalarTriples_pred hc
      simp only [List.mem_cons, List.not_mem_nil, or_false] at hp
      rcases hp with he | he | he | he | he | he <;> rw [he] <;> exact ⟨by decide, by decide⟩
    · rw [patternTriples_pred hc]; exact ⟨by decide, by decide⟩
    · rcases tableTriples_pred hc with he | he <;> rw [he] <;> exact ⟨by decide, by decide⟩
    · rcases columnTriples_pred hc with he | he <;> rw [he] <;> exact ⟨by decide, by decide⟩
    · rcases aggTriples_pred hc with he | he <;> rw [he] <;> exact ⟨by decide, by decide⟩
    · rcases contextTriples_pred hc with he | he | he <;> rw [he] <;>
        exact ⟨by decide, by decide⟩
    · rcases performanceTriples_pred hc with he | he | he <;> rw [he] <;>
        exact ⟨by decide, by decide⟩
    · rw [pairCoTriples_pred hc]; exact ⟨by decide, by decide⟩
    · rw [commonlyTriples_pred hc]; exact ⟨by decide, by decide⟩

/-- Closed instance of the amended C1: a concrete written triple of the sample
join query carries neither join predicate. -/
theorem record_join_facts_never_written_witness :
    ((⟨queryKey pyHash "SELECT name FROM users JOIN orders", "has_sql",
        "SELECT name FROM users JOIN orders"⟩ : Triple) ∈
      recordTriples pyHash "t0" "SELECT name FROM users JOIN orders" sampleJoinParsed
        50 10 true none) ∧
    ((⟨queryKey pyHash "SELECT name FROM users JOIN orders", "has_sql",
        "SELECT name FROM users JOIN orders"⟩ : Triple).pred ≠ "performs_join" ∧
      strContains (⟨queryKey pyHash "SELECT name FROM users JOIN orders", "has_sql",
        "SELECT name FROM users JOIN orders"⟩ : Triple).pred "joined_with" = false) :=
  ⟨by decide,
   record_join_facts_never_written.2 pyHash "t0" "SELECT name FROM users JOIN orders"
     sampleJoinParsed 50 10 true none _ (by decide)⟩

/-- **C1 (counterexample).** The sample query contains a join — its analysis
carries `JOIN_PATTERN` — yet the batch written for it holds no `performs_join`
fact and no `joined_with` edge, contradicting the claim that each join yields
both. -/
theorem record_join_facts_counterexample :
    "JOIN_PATTERN" ∈ (analyzeQueryStructure sampleJoinParsed).patterns ∧
    (recordTriples pyHash "t0" "SELECT name FROM users JOIN orders" sampleJoinParsed
        50 10 true none).filter
      (fun tr => tr.pred = "performs_join" || strContains tr.pred "joined_with") = [] := by
  decide

/-! ## Scalar facts on any input (C3) -/

/-- **C3.** For every tokenizer output — the malformed and the unparsable
included — `record()` (a total function here, as in spec 4.1's no-raise
contract) writes the four scalar facts, and whenever the statement has no
keyword-tagged top-level token the written `query_type` is `"UNKNOWN"`. -/
theorem record_scalar_facts_total (h : String → Int) (now q : String) (p : Parsed)
    (t : Rat) (rc : Int) (s : Bool) (ctx : Option UserContext) :
    (⟨queryKey h q, "has_sql", q⟩ : Triple) ∈ recordTriples h now q p t rc s ctx ∧
    (⟨queryKey h q, "execution_time", pyNumStr t⟩ : Triple) ∈ recordTriples h now q p t rc s ctx ∧
    (⟨queryKey h q, "result_count", toString rc⟩ : Triple) ∈ recordTriples h now q p t rc s ctx ∧
    (⟨queryKey h q, "success", pyBoolStr s⟩ : Triple) ∈ recordTriples h now q p t rc s ctx ∧
    ((∀ tk ∈ p.tokens, tk.ttype ≠ TType.keyword) →
      (⟨queryKey h q, "query_type", "UNKNOWN"⟩ : Triple) ∈ recordTriples h now q p t rc s ctx) := by
  refine ⟨?_, ?_, ?_, ?_, ?_⟩
  · simp [recordTriples, scalarTriples]
  · simp [recordTriples, scalarTriples]
  · simp [recordTriples, scalarTriples]
  · simp [recordTriples, scalarTriples]
  · intro hk
    have hnone : p.tokens.find? (fun tk => tk.ttype = TType.keyword) = none :=
      List.find?_eq_none.mpr (fun x hx => by simp [hk x hx])
    have hty : (analyzeQueryStructure p).type = "UNKNOWN" := by
      show getQueryType p = "UNKNOWN"
      unfold getQueryType
      rw [hnone]
    simp [recordTriples, scalarTriples, ← hty]

/-- Closed instance of C3 on the unparsable text `"???"`: no token is
keyword-tagged and the scalar facts, `query_type=UNKNOWN` included, are
written. -/
theorem record_scalar_facts_total_witness :
    (∀ tk ∈ unparsableParsed.tokens, tk.ttype ≠ TType.keyword) ∧
    (⟨queryKey pyHash "???", "has_sql", "???"⟩ : Triple) ∈
      recordTriples pyHash "t0" "???" unparsableParsed 5 0 true none ∧
    (⟨queryKey pyHash "???", "success", pyBoolStr true⟩ : Triple) ∈
      recordTriples pyHash "t0" "???" unparsableParsed 5 0 true none ∧
    (⟨queryKey pyHash "???", "query_type", "UNKNOWN"⟩ : Triple) ∈
      recordTriples pyHash "t0" "???" unparsableParsed 5 0 true none :=
  ⟨by decide,
   (record_scalar_facts_total pyHash "t0" "???" unparsableParsed 5 0 true none).1,
   (record_scalar_facts_total pyHash "t0" "???" unparsableParsed 5 0 true none).2.2.2.1,
   (record_scalar_facts_total pyHash "t0" "???" unparsableParsed 5 0 true none).2.2.2.2
     (by decide)⟩

/-! ## Performance classification (C7) -/

/-- **C7.** The classification is a deterministic function of the execution
time with thresholds 100 and 1000 (`FAST` below 100, `MEDIUM` in `[100,
1000)`, `SLOW` at or above 1000), and `record()` writes it as the
`performance_class` fact on the query key. -/
theorem performance_class_thresholds (h : String → Int) (now q : String) (p : Parsed)
    (t : Rat) (rc : Int) (s : Bool) (ctx : Option UserContext) :
    ((t < 100 → classifyPerformance t = "FAST") ∧
     (100 ≤ t → t < 1000 → classifyPerformance t = "MEDIUM") ∧
     (1000 ≤ t → classifyPerformance t = "SLOW")) ∧
    (⟨queryKey h q, "performance_class", classifyPerformance t⟩ : Triple) ∈
      recordTriples h now q p t rc s ctx := by
  constructor
  · refine ⟨?_, ?_, ?_⟩
    · intro h1
      unfold classifyPerformance
      rw [if_pos h1]
    · intro h1 h2
      unfold classifyPerformance
      rw [if_neg (not_lt.mpr h1), if_pos h2]
    · intro h1
      unfold classifyPerformance
      rw [if_neg (not_lt.mpr (by linarith)), if_neg (not_lt.mpr h1)]
  · simp [recordTriples, performanceTriples]

/-- Closed instance of C7: a 50 ms execution of the sample query is classified
`FAST` and the fact is written. -/
theorem performance_class_thresholds_witness :
    (50 : Rat) < 100 ∧ classifyPerformance 50 = "FAST" ∧
    (⟨queryKey pyHash "SELECT name FROM users JOIN orders", "performance_class",
        classifyPerformance 50⟩ : Triple) ∈
      recordTriples pyHash "t0" "SELECT name FROM users JOIN orders" sampleJoinParsed
        50 10 true none :=
  ⟨by norm_num,
   (performance_class_thresholds pyHash "t0" "SELECT name FROM users JOIN orders"
      sampleJoinParsed 50 10 true none).1.1 (by norm_num),
   (performance_class_thresholds pyHash "t0" "SELECT name FROM users JOIN orders"
      sampleJoinParsed 50 10 true none).2⟩
